import Mathlib

/-!
Shallow embedding of the `update-jdks-action` core (`src/index.ts`).

The TypeScript program reads a YAML manifest `.teamcity/jdks.yaml`, and for
each entry whose vendor is `temurin` queries the Adoptium API for the latest
release of the entry's major version / OS / architecture; if the returned
release name differs from the pinned `version`, it overwrites `version` and
`sha256` in memory; after the loop it rewrites the file only when at least one
entry changed. Any thrown error is caught once at the top and reported via
`core.setFailed`.

The embedding below is functional: the HTTP world is a function
`fetch : String → HttpResponse`; file loading is an `Except` input to `run`
(the `try` block wraps `readFileSync`/`yaml.load`); the file write is the
`written` field of `run`'s result. JavaScript exceptions become the `JdkError`
inductive, whose constructors carry exactly the data interpolated into the
corresponding `Error` message strings in the source.
-/

set_option maxRecDepth 4000

deriving instance DecidableEq for Except

namespace UpdateJdksAction

/-- One manifest entry, the `Jdk` interface of `src/index.ts`. -/
structure Jdk where
  os : String
  arch : String
  vendor : String
  version : String
  sha256 : String
deriving DecidableEq

/-- The loaded YAML document. The TypeScript `JdksYaml` interface declares
only `jdks`, but `yaml.load` keeps every other top-level key in the same
object and `yaml.dump` writes them back; `extra` models those unknown
top-level keys (as an opaque key/value list). -/
structure JdksYaml where
  jdks : List Jdk
  extra : List (String × String)
deriving DecidableEq

/-- `OS_MAPPING` from `src/index.ts` (a `Map` built from this pair list). -/
def OS_MAPPING : List (String × String) :=
  [("windows", "windows"), ("linux", "linux"), ("macos", "mac")]

/-- `ARCH_MAPPING` from `src/index.ts`. -/
def ARCH_MAPPING : List (String × String) :=
  [("amd64", "x64"), ("aarch64", "aarch64")]

/-- JSON shape accessed by the code: `binary.package.checksum`. Fields the
code reads are `Option`s since the response is untyped (`any`). -/
structure Package where
  checksum : Option String
deriving DecidableEq

/-- `binary` object of one release descriptor. -/
structure Binary where
  package : Option Package
deriving DecidableEq

/-- One element of the Adoptium response array; only the fields the code
reads are modelled, all others are ignored by the source too. -/
structure Asset where
  release_name : Option String
  binary : Option Binary
deriving DecidableEq

/-- The errors the source can throw, with the data its message strings carry. -/
inductive JdkError where
  /-- `getOrError`: "Key '<key>' not found. Available keys: [<keys>]" -/
  | lookupError (key : String) (validKeys : List String)
  /-- `extractMajorVersion`: "Major version not found in string: <s>" -/
  | parseError (s : String)
  /-- non-ok HTTP response: carries `majorVersion`, `response.statusText`
  and the response body text -/
  | fetchError (majorVersion : Nat) (statusText : String) (body : String)
  /-- missing `release_name` or `binary.package.checksum`: carries
  `majorVersion` and the raw parsed payload (`JSON.stringify(data)`) -/
  | malformedResponse (majorVersion : Nat) (payload : List Asset)
  /-- `readFileSync` / `yaml.load` failure -/
  | loadError (msg : String)
deriving DecidableEq

/-- A `fetch` result: `ok`, `statusText`, body as text (used on the error
path) and body parsed as a JSON array of release descriptors (used on the
success path). -/
structure HttpResponse where
  ok : Bool
  statusText : String
  text : String
  json : List Asset
deriving DecidableEq

/-- `Map.get`: first-match lookup in the pair list. -/
def mapGet (m : List (String × String)) (key : String) : Option String :=
  match m with
  | [] => none
  | (k, v) :: rest => if k = key then some v else mapGet rest key

/-- `getOrError` from `src/index.ts`. JavaScript `map.get(key) || throw`:
a missing key throws, and so would a present key mapped to the falsy `''`. -/
def getOrError (m : List (String × String)) (key : String) :
    Except JdkError String :=
  match mapGet m key with
  | some v => if v = "" then .error (.lookupError key (m.map Prod.fst)) else .ok v
  | none => .error (.lookupError key (m.map Prod.fst))

/-- Maximal run of decimal digits at the front of the list: the greedy
capture group `(\d+)`. -/
def digitRun : List Char → List Char
  | [] => []
  | c :: cs => if c.isDigit then c :: digitRun cs else []

/-- `parseInt(s, 10)` on a digit string. -/
def parseDigits (ds : List Char) : Nat :=
  ds.foldl (fun acc c => 10 * acc + (c.toNat - '0'.toNat)) 0

/-- `jdkString.match(/jdk-(\d+)/)`: scan left to right for the first
position where the literal `jdk-` is followed by at least one digit; the
capture is the maximal digit run there. -/
def findJdkDigits : List Char → Option (List Char)
  | 'j' :: 'd' :: 'k' :: '-' :: d :: rest =>
    if d.isDigit then some (digitRun (d :: rest))
    else findJdkDigits ('d' :: 'k' :: '-' :: d :: rest)
  | _ :: cs => findJdkDigits cs
  | [] => none

/-- `extractMajorVersion` from `src/index.ts`. The `take 5` test is
`jdkString.startsWith('jdk8u')`. -/
def extractMajorVersion (jdkString : String) : Except JdkError Nat :=
  if jdkString.data.take 5 = ['j', 'd', 'k', '8', 'u'] then .ok 8
  else
    match findJdkDigits jdkString.data with
    | some ds => .ok (parseDigits ds)
    | none => .error (.parseError jdkString)

/-- The request URL built in `getLatestTemurinVersion`. -/
def apiUrl (majorVersion : Nat) (targetOs targetArch : String) : String :=
  "https://api.adoptium.net/v3/assets/latest/" ++ toString majorVersion ++
    "/hotspot?os=" ++ targetOs ++ "&architecture=" ++ targetArch ++
    "&image_type=jdk"

/-- The optional chain `latestAsset.binary?.package?.checksum`. -/
def assetChecksum (a : Asset) : Option String :=
  a.binary.bind fun b => b.package.bind fun p => p.checksum

/-- `getLatestTemurinVersion` from `src/index.ts`. Order of steps follows
the source: version parse, then arch lookup, then os lookup, then the fetch.
The truthiness tests `!latestAsset.release_name` and
`!latestAsset.binary?.package?.checksum` fail on a missing field and on the
falsy empty string. -/
def getLatestTemurinVersion (fetch : String → HttpResponse) (jdk : Jdk) :
    Except JdkError (String × String) :=
  match extractMajorVersion jdk.version with
  | .error e => .error e
  | .ok majorVersion =>
    match getOrError ARCH_MAPPING jdk.arch with
    | .error e => .error e
    | .ok targetArch =>
      match getOrError OS_MAPPING jdk.os with
      | .error e => .error e
      | .ok targetOs =>
        let response := fetch (apiUrl majorVersion targetOs targetArch)
        if response.ok = false then
          .error (.fetchError majorVersion response.statusText response.text)
        else
          match response.json.head? with
          | none => .error (.malformedResponse majorVersion response.json)
          | some latestAsset =>
            match latestAsset.release_name, assetChecksum latestAsset with
            | some rn, some cs =>
              if rn = "" ∨ cs = "" then
                .error (.malformedResponse majorVersion response.json)
              else .ok (rn, cs)
            | some _, none => .error (.malformedResponse majorVersion response.json)
            | none, _ => .error (.malformedResponse majorVersion response.json)

/-- One iteration of the `for` loop in `run()`: returns the (possibly
updated) entry and whether this entry set `changesMade`. -/
def updateJdk (fetch : String → HttpResponse) (jdk : Jdk) :
    Except JdkError (Jdk × Bool) :=
  if jdk.vendor = "temurin" then
    match getLatestTemurinVersion fetch jdk with
    | .error e => .error e
    | .ok vs =>
      if jdk.version ≠ vs.1 then
        .ok ({ jdk with version := vs.1, sha256 := vs.2 }, true)
      else
        .ok (jdk, false)
  else
    .ok (jdk, false)

/-- The whole `for` loop of `run()`: processes entries in order, stops at
the first thrown error, and accumulates `changesMade`. -/
def processJdks (fetch : String → HttpResponse) :
    List Jdk → Except JdkError (List Jdk × Bool)
  | [] => .ok ([], false)
  | jdk :: rest =>
    match updateJdk fetch jdk with
    | .error e => .error e
    | .ok jc =>
      match processJdks fetch rest with
      | .error e => .error e
      | .ok rb => .ok (jc.1 :: rb.1, jc.2 || rb.2)

/-- Result of one run: `failed` is the single `core.setFailed` report (the
`catch` block), `written` is the manifest value passed to `yaml.dump` +
`writeFileSync`, or `none` when the file is not touched. -/
structure RunResult where
  failed : Option JdkError
  written : Option JdksYaml
deriving DecidableEq

/-- `run()` from `src/index.ts`. `loaded` is the outcome of
`readFileSync` + `yaml.load` (both inside the `try`). -/
def run (fetch : String → HttpResponse) (loaded : Except JdkError JdksYaml) :
    RunResult :=
  match loaded with
  | .error e => { failed := some e, written := none }
  | .ok data =>
    match processJdks fetch data.jdks with
    | .error e => { failed := some e, written := none }
    | .ok nb =>
      if nb.2 = false then { failed := none, written := none }
      else { failed := none, written := some { data with jdks := nb.1 } }

/-- File content after a run, for an arbitrary serializer `dump`
(`yaml.dump` with the source's quoting options): unchanged when nothing was
written. -/
def fileAfter (dump : JdksYaml → String) (before : String) (r : RunResult) :
    String :=
  match r.written with
  | none => before
  | some m => dump m

/-! Concrete fixtures used by the witnesses below. -/

/-- A well-formed release descriptor as returned by the Adoptium API. -/
def okAsset : Asset :=
  { release_name := some "jdk-22.0.1+8"
    binary := some { package := some { checksum := some "newsha256" } } }

/-- A fetch world that always answers 200 with one well-formed descriptor. -/
def okFetch : String → HttpResponse :=
  fun _ => { ok := true, statusText := "OK", text := "", json := [okAsset] }

/-- A fetch world that always answers a non-success status. -/
def badStatusFetch : String → HttpResponse :=
  fun _ => { ok := false, statusText := "Not Found", text := "no such release", json := [] }

/-- A pinned temurin entry on linux/amd64. -/
def jdkLinux : Jdk :=
  { os := "linux", arch := "amd64", vendor := "temurin"
    version := "jdk-21.0.3+9", sha256 := "oldsha256" }

/-- An entry of another vendor. -/
def jdkOther : Jdk :=
  { os := "linux", arch := "amd64", vendor := "zulu"
    version := "21.0.1", sha256 := "zsha" }

example : extractMajorVersion "jdk8u432-b06" = .ok 8 := by decide
example : extractMajorVersion "jdk-23+30-ea-beta" = .ok 23 := by decide
example : extractMajorVersion "jdk-21.0.3+9" = .ok 21 := by decide
example : extractMajorVersion "not-a-jdk-string" =
    .error (.parseError "not-a-jdk-string") := by decide
example : getOrError OS_MAPPING "macos" = .ok "mac" := by decide
example : getLatestTemurinVersion okFetch jdkLinux =
    .ok ("jdk-22.0.1+8", "newsha256") := by decide
example : updateJdk okFetch jdkLinux =
    .ok ({ jdkLinux with version := "jdk-22.0.1+8", sha256 := "newsha256" }, true) := by
  decide
example : getLatestTemurinVersion badStatusFetch jdkLinux =
    .error (.fetchError 21 "Not Found" "no such release") := by decide

/-- A temurin entry with an OS token absent from `OS_MAPPING`. -/
def jdkPlan9 : Jdk :=
  { os := "plan9", arch := "amd64", vendor := "temurin"
    version := "jdk-21.0.3+9", sha256 := "p9sha" }

/-- A descriptor whose release name equals `jdkLinux`'s pinned version but
whose checksum differs from the pinned one. -/
def sameVersionAsset : Asset :=
  { release_name := some "jdk-21.0.3+9"
    binary := some { package := some { checksum := some "driftsha" } } }

/-- A fetch world answering the currently pinned release with a drifted
checksum. -/
def sameVersionFetch : String → HttpResponse :=
  fun _ => { ok := true, statusText := "OK", text := "", json := [sameVersionAsset] }

/-- Single-temurin-entry manifest with an unknown top-level key. -/
def dataLinux : JdksYaml :=
  { jdks := [jdkLinux], extra := [("schemaVersion", "1")] }

/-- `jdkLinux` after the update produced by `okFetch`. -/
def jdkLinuxUpdated : Jdk :=
  { jdkLinux with version := "jdk-22.0.1+8", sha256 := "newsha256" }

/-- `dataLinux` after the update produced by `okFetch`. -/
def dataLinuxUpdated : JdksYaml :=
  { jdks := [jdkLinuxUpdated], extra := [("schemaVersion", "1")] }

/-- Two-entry manifest: one temurin entry and one other-vendor entry. -/
def dataTwo : JdksYaml :=
  { jdks := [jdkLinux, jdkOther], extra := [("schemaVersion", "1")] }

/-- `dataTwo` after the update produced by `okFetch`. -/
def dataTwoUpdated : JdksYaml :=
  { jdks := [jdkLinuxUpdated, jdkOther], extra := [("schemaVersion", "1")] }

/-- Manifest holding only a non-temurin entry. -/
def dataOther : JdksYaml :=
  { jdks := [jdkOther], extra := [("schemaVersion", "1")] }

/-! ### Structural lemmas about one loop iteration and the whole loop -/

theorem updateJdk_not_temurin (fetch : String → HttpResponse) (j : Jdk)
    (h : ¬ j.vendor = "temurin") : updateJdk fetch j = .ok (j, false) := by
  simp [updateJdk, h]

theorem updateJdk_ok_cases (fetch : String → HttpResponse) (j j' : Jdk) (c : Bool)
    (h : updateJdk fetch j = .ok (j', c)) :
    (j' = j ∧ c = false) ∨
      (j.vendor = "temurin" ∧ ∃ v s,
        getLatestTemurinVersion fetch j = .ok (v, s) ∧ ¬ v = j.version ∧
        j' = { j with version := v, sha256 := s } ∧ c = true) := by
  unfold updateJdk at h
  by_cases hv : j.vendor = "temurin"
  · rw [if_pos hv] at h
    cases hr : getLatestTemurinVersion fetch j with
    | error e => rw [hr] at h; exact absurd h (by simp)
    | ok vs =>
      obtain ⟨v, s⟩ := vs
      rw [hr] at h
      dsimp only at h
      by_cases hne : j.version ≠ v
      · rw [if_pos hne] at h
        simp only [Except.ok.injEq, Prod.mk.injEq] at h
        exact Or.inr ⟨hv, v, s, rfl, fun hvv => hne hvv.symm, h.1.symm, h.2.symm⟩
      · rw [if_neg hne] at h
        simp only [Except.ok.injEq, Prod.mk.injEq] at h
        exact Or.inl ⟨h.1.symm, h.2.symm⟩
  · rw [if_neg hv] at h
    simp only [Except.ok.injEq, Prod.mk.injEq] at h
    exact Or.inl ⟨h.1.symm, h.2.symm⟩

theorem processJdks_ok (fetch : String → HttpResponse) (l l' : List Jdk) (b : Bool)
    (h : processJdks fetch l = .ok (l', b)) :
    l'.length = l.length ∧
    (∀ i (hi : i < l.length) (hi' : i < l'.length),
      ∃ c, updateJdk fetch (l.get ⟨i, hi⟩) = .ok (l'.get ⟨i, hi'⟩, c)) ∧
    (b = true → ∃ j ∈ l, ∃ j2, updateJdk fetch j = .ok (j2, true)) := by
  induction l generalizing l' b with
  | nil =>
    simp only [processJdks, Except.ok.injEq, Prod.mk.injEq] at h
    obtain ⟨h1, h2⟩ := h
    subst h1; subst h2
    exact ⟨rfl, fun i hi _ => absurd hi (by simp), fun hb => by cases hb⟩
  | cons j rest ih =>
    unfold processJdks at h
    cases h1 : updateJdk fetch j with
    | error e => rw [h1] at h; exact absurd h (by simp)
    | ok jc =>
      obtain ⟨j1, c1⟩ := jc
      rw [h1] at h
      cases h2 : processJdks fetch rest with
      | error e => rw [h2] at h; exact absurd h (by simp)
      | ok rb =>
        obtain ⟨rest2, b2⟩ := rb
        rw [h2] at h
        simp only [Except.ok.injEq, Prod.mk.injEq] at h
        obtain ⟨hl, hb⟩ := h
        subst hl; subst hb
        obtain ⟨ihlen, ihget, ihch⟩ := ih rest2 b2 h2
        refine ⟨by simp [ihlen], ?_, ?_⟩
        · intro i hi hi'
          cases i with
          | zero => exact ⟨c1, by simpa using h1⟩
          | succ n =>
            exact ihget n (by simpa using hi) (by simpa using hi')
        · intro hb
          rcases Bool.or_eq_true_iff.mp hb with hc1 | hb2
          · subst hc1
            exact ⟨j, by simp, j1, h1⟩
          · obtain ⟨x, hx, x2, hx2⟩ := ihch hb2
            exact ⟨x, by simp [hx], x2, hx2⟩

theorem processJdks_id (fetch : String → HttpResponse) (l : List Jdk)
    (h : ∀ j ∈ l, updateJdk fetch j = .ok (j, false)) :
    processJdks fetch l = .ok (l, false) := by
  induction l with
  | nil => rfl
  | cons j rest ih =>
    simp [processJdks, h j (by simp),
      ih (fun x hx => h x (by simp [hx]))]

theorem processJdks_first_error (fetch : String → HttpResponse) (l1 : List Jdk)
    (j : Jdk) (l2 : List Jdk) (e : JdkError)
    (h1 : ∀ x ∈ l1, ∃ r, updateJdk fetch x = .ok r)
    (hj : updateJdk fetch j = .error e) :
    processJdks fetch (l1 ++ j :: l2) = .error e := by
  induction l1 with
  | nil => simp [processJdks, hj]
  | cons x xs ih =>
    obtain ⟨r, hr⟩ := h1 x (by simp)
    simp [processJdks, hr, ih (fun y hy => h1 y (by simp [hy]))]

theorem run_ok_inv (fetch : String → HttpResponse) (data m : JdksYaml)
    (h : run fetch (.ok data) = { failed := none, written := some m }) :
    ∃ l', processJdks fetch data.jdks = .ok (l', true) ∧
      m = { data with jdks := l' } := by
  unfold run at h
  dsimp only at h
  cases hp : processJdks fetch data.jdks with
  | error e => rw [hp] at h; exact absurd h (by simp)
  | ok nb =>
    obtain ⟨l', b⟩ := nb
    rw [hp] at h
    cases b with
    | false => exact absurd h (by simp)
    | true =>
      simp at h
      exact ⟨l', rfl, h.symm⟩

/-! ### Lemmas about the version pattern -/

theorem take5_cons (a b c d e : Char) (t : List Char) :
    (a :: b :: c :: d :: e :: t).take 5 = [a, b, c, d, e] := rfl

theorem digitRun_append (ds tail : List Char)
    (hds : ∀ c ∈ ds, c.isDigit = true)
    (ht : (tail.head?.all fun c => !c.isDigit) = true) :
    digitRun (ds ++ tail) = ds := by
  induction ds with
  | nil =>
    cases tail with
    | nil => rfl
    | cons c cs =>
      simp only [Option.all, List.head?] at ht
      simp only [Bool.not_eq_true'] at ht
      simp only [List.nil_append, digitRun]
      rw [if_neg (by simp [ht])]
  | cons d ds ih =>
    rw [List.cons_append]
    rw [show digitRun (d :: (ds ++ tail)) =
      if d.isDigit then d :: digitRun (ds ++ tail) else [] from rfl]
    rw [if_pos (hds d (by simp))]
    rw [ih (fun c hc => hds c (by simp [hc]))]

theorem findJdkDigits_match_eq (d : Char) (rest : List Char) :
    findJdkDigits ('j' :: 'd' :: 'k' :: '-' :: d :: rest) =
      if d.isDigit then some (digitRun (d :: rest))
      else findJdkDigits ('d' :: 'k' :: '-' :: d :: rest) := rfl

theorem findJdkDigits_step (c : Char) (cs : List Char)
    (h : ∀ d r, c :: cs = 'j' :: 'd' :: 'k' :: '-' :: d :: r → d.isDigit = false) :
    findJdkDigits (c :: cs) = findJdkDigits cs := by
  rw [findJdkDigits.eq_def]
  split
  · rename_i d rest heq
    rw [h d rest heq]
    simp only [Bool.false_eq_true, if_false]
    injection heq with h1 h2
    rw [h2]
  · rename_i head cs' hno heq
    injection heq with h1 h2
    rw [h2]
  · rename_i heq
    cases heq

/-- The regex semantics of `/jdk-(\d+)/`: the scan returns the digit run of
the earliest position where `jdk-` is followed by a digit. The no-earlier-
match hypothesis is positional (in terms of `take`/`drop`), hence decidable
on concrete inputs. -/
theorem findJdkDigits_first (pre ds tail : List Char)
    (hne : ds ≠ [])
    (hds : ∀ c ∈ ds, c.isDigit = true)
    (ht : (tail.head?.all fun c => !c.isDigit) = true)
    (hfirst : ∀ i, i < pre.length →
      ¬ (((pre ++ ('j' :: 'd' :: 'k' :: '-' :: (ds ++ tail))).drop i).take 4 =
            ['j', 'd', 'k', '-'] ∧
        (((pre ++ ('j' :: 'd' :: 'k' :: '-' :: (ds ++ tail))).drop i).drop 4).head?.any
            Char.isDigit = true)) :
    findJdkDigits (pre ++ ('j' :: 'd' :: 'k' :: '-' :: (ds ++ tail))) = some ds := by
  induction pre with
  | nil =>
    cases ds with
    | nil => exact absurd rfl hne
    | cons d0 ds0 =>
      rw [List.nil_append]
      rw [show ('j' :: 'd' :: 'k' :: '-' :: ((d0 :: ds0) ++ tail)) =
        'j' :: 'd' :: 'k' :: '-' :: d0 :: (ds0 ++ tail) from rfl]
      rw [findJdkDigits_match_eq, if_pos (hds d0 (by simp)),
        show (d0 :: (ds0 ++ tail)) = ((d0 :: ds0) ++ tail) from rfl,
        digitRun_append (d0 :: ds0) tail hds ht]
  | cons c pre' ih =>
    have hno : ∀ d r,
        c :: (pre' ++ ('j' :: 'd' :: 'k' :: '-' :: (ds ++ tail))) =
          'j' :: 'd' :: 'k' :: '-' :: d :: r → d.isDigit = false := by
      intro d r hmeq
      cases hd : d.isDigit with
      | false => rfl
      | true =>
        exfalso
        apply hfirst 0 (by simp)
        rw [List.drop_zero, List.cons_append, hmeq]
        exact ⟨rfl, by simp [hd]⟩
    rw [List.cons_append, findJdkDigits_step c _ hno]
    exact ih (fun i hi => by
      have h2 := hfirst (i + 1) (by simpa using Nat.succ_lt_succ hi)
      rw [List.cons_append, List.drop_succ_cons] at h2
      exact h2)

/-- Claim C5: `extractMajorVersion` returns 8 for every string beginning
with `jdk8u`; otherwise it returns the decimal digits immediately following
the first occurrence of the literal substring `jdk-` that is followed by a
digit — at any position in the string — parsed as an integer, ignoring
trailing qualifiers; and it fails with a `ParseError` naming the string
when neither pattern matches. In particular `jdk8u432-b06` ↦ 8,
`jdk-23+30-ea-beta` ↦ 23, `jdk-21.0.3+9` ↦ 21, and `not-a-jdk-string`
fails. -/
theorem extractMajorVersion_spec :
    (∀ rest : String, extractMajorVersion ("jdk8u" ++ rest) = .ok 8) ∧
    (∀ (pre ds tail : List Char) (s : String),
      s.data = pre ++ ('j' :: 'd' :: 'k' :: '-' :: (ds ++ tail)) →
      s.data.take 5 ≠ ['j', 'd', 'k', '8', 'u'] →
      ds ≠ [] →
      (∀ c ∈ ds, c.isDigit = true) →
      (tail.head?.all fun c => !c.isDigit) = true →
      (∀ i, i < pre.length →
        ¬ ((s.data.drop i).take 4 = ['j', 'd', 'k', '-'] ∧
          ((s.data.drop i).drop 4).head?.any Char.isDigit = true)) →
      extractMajorVersion s = .ok (parseDigits ds)) ∧
    (∀ s : String, s.data.take 5 ≠ ['j', 'd', 'k', '8', 'u'] →
      findJdkDigits s.data = none →
      extractMajorVersion s = .error (.parseError s)) ∧
    extractMajorVersion "jdk8u432-b06" = .ok 8 ∧
    extractMajorVersion "jdk-23+30-ea-beta" = .ok 23 ∧
    extractMajorVersion "jdk-21.0.3+9" = .ok 21 ∧
    extractMajorVersion "not-a-jdk-string" = .error (.parseError "not-a-jdk-string") := by
  refine ⟨?_, ?_, ?_, by decide, by decide, by decide, by decide⟩
  · intro rest
    unfold extractMajorVersion
    have hd5 : "jdk8u".data = ['j', 'd', 'k', '8', 'u'] := by decide
    have hdata : ("jdk8u" ++ rest).data = 'j' :: 'd' :: 'k' :: '8' :: 'u' :: rest.data := by
      rw [String.data_append, hd5]
      rfl
    rw [hdata, take5_cons, if_pos rfl]
  · intro pre ds tail s hdata h8 hne hds ht hfirst
    unfold extractMajorVersion
    rw [if_neg h8, hdata,
      findJdkDigits_first pre ds tail hne hds ht
        (fun i hi => by rw [← hdata]; exact hfirst i hi)]
  · intro s h5 hnone
    unfold extractMajorVersion
    rw [if_neg h5, hnone]

/-- Witness for C5 at concrete inputs, including matches that are not at
the start of the string. -/
theorem extractMajorVersion_spec_witness :
    extractMajorVersion "openjdk-21" = .ok (parseDigits ['2', '1']) ∧
    extractMajorVersion "jdk-x-jdk-17" = .ok (parseDigits ['1', '7']) ∧
    extractMajorVersion "not-a-jdk-string" = .error (.parseError "not-a-jdk-string") :=
  ⟨extractMajorVersion_spec.2.1 ['o', 'p', 'e', 'n'] ['2', '1'] [] "openjdk-21"
      (by decide) (by decide) (by decide) (by decide) (by decide) (by decide),
    extractMajorVersion_spec.2.1 ['j', 'd', 'k', '-', 'x', '-'] ['1', '7'] []
      "jdk-x-jdk-17"
      (by decide) (by decide) (by decide) (by decide) (by decide) (by decide),
    extractMajorVersion_spec.2.2.1 "not-a-jdk-string" (by decide) (by decide)⟩

/-- Claim C8: the platform mapper is a pure exact-key lookup against the
fixed OS and architecture tables: every present key returns the table's
value (`macos` maps to the API token `mac`), and every absent key fails
with a `LookupError` carrying the offending value and the set of valid
keys; no fuzzy matching or case normalization (`MACOS` is absent). -/
theorem getOrError_mapping_spec :
    (∀ k v, (k, v) ∈ OS_MAPPING → getOrError OS_MAPPING k = .ok v) ∧
    (∀ k v, (k, v) ∈ ARCH_MAPPING → getOrError ARCH_MAPPING k = .ok v) ∧
    (∀ k, k ∉ OS_MAPPING.map Prod.fst →
      getOrError OS_MAPPING k = .error (.lookupError k ["windows", "linux", "macos"])) ∧
    (∀ k, k ∉ ARCH_MAPPING.map Prod.fst →
      getOrError ARCH_MAPPING k = .error (.lookupError k ["amd64", "aarch64"])) ∧
    getOrError OS_MAPPING "macos" = .ok "mac" ∧
    getOrError ARCH_MAPPING "amd64" = .ok "x64" ∧
    getOrError OS_MAPPING "plan9" = .error (.lookupError "plan9" ["windows", "linux", "macos"]) ∧
    getOrError OS_MAPPING "MACOS" = .error (.lookupError "MACOS" ["windows", "linux", "macos"]) := by
  refine ⟨?_, ?_, ?_, ?_, by decide, by decide, by decide, by decide⟩
  · intro k v hm
    simp [OS_MAPPING] at hm
    rcases hm with ⟨hk, hv⟩ | ⟨hk, hv⟩ | ⟨hk, hv⟩ <;> subst hk <;> subst hv <;> decide
  · intro k v hm
    simp [ARCH_MAPPING] at hm
    rcases hm with ⟨hk, hv⟩ | ⟨hk, hv⟩ <;> subst hk <;> subst hv <;> decide
  · intro k hk
    simp [OS_MAPPING] at hk
    obtain ⟨h1, h2, h3⟩ := hk
    simp only [getOrError, OS_MAPPING, mapGet]
    rw [if_neg (fun h => h1 h.symm), if_neg (fun h => h2 h.symm),
      if_neg (fun h => h3 h.symm)]
    rfl
  · intro k hk
    simp [ARCH_MAPPING] at hk
    obtain ⟨h1, h2⟩ := hk
    simp only [getOrError, ARCH_MAPPING, mapGet]
    rw [if_neg (fun h => h1 h.symm), if_neg (fun h => h2 h.symm)]
    rfl

/-- Witness for C8 at concrete keys. -/
theorem getOrError_mapping_spec_witness :
    getOrError OS_MAPPING "macos" = .ok "mac" ∧
    getOrError OS_MAPPING "plan9" =
      .error (.lookupError "plan9" ["windows", "linux", "macos"]) :=
  ⟨getOrError_mapping_spec.1 "macos" "mac" (by decide),
    getOrError_mapping_spec.2.2.1 "plan9" (by decide)⟩

/-- Claim C1: if any step errors (manifest load, or any loop iteration:
lookup, version parse, fetch, response validation), the remaining entry
iteration is aborted (the trailing entries `l2` are arbitrary and never
consulted), the run reports exactly that one failure, and the manifest is
never written. -/
theorem run_error_all_or_nothing (fetch : String → HttpResponse) (e : JdkError) :
    run fetch (.error e) = { failed := some e, written := none } ∧
    (∀ (l1 : List Jdk) (j : Jdk) (l2 : List Jdk) (extra : List (String × String)),
      (∀ x ∈ l1, ∃ r, updateJdk fetch x = .ok r) →
      updateJdk fetch j = .error e →
      run fetch (.ok { jdks := l1 ++ j :: l2, extra := extra }) =
        { failed := some e, written := none }) := by
  refine ⟨rfl, ?_⟩
  intro l1 j l2 extra h1 hj
  have hp : processJdks fetch (l1 ++ j :: l2) = .error e :=
    processJdks_first_error fetch l1 j l2 e h1 hj
  simp [run, hp]

/-- Witness for C1: the first entry's OS token is unknown, so the run
fails with that lookup error and writes nothing, whatever follows. -/
theorem run_error_all_or_nothing_witness :
    run okFetch (.ok { jdks := [jdkPlan9, jdkLinux], extra := [("schemaVersion", "1")] }) =
      { failed := some (.lookupError "plan9" ["windows", "linux", "macos"])
        written := none } :=
  (run_error_all_or_nothing okFetch
      (.lookupError "plan9" ["windows", "linux", "macos"])).2
    [] jdkPlan9 [jdkLinux] [("schemaVersion", "1")] (by simp) (by decide)

/-- Claim C3: entries of another vendor are never mutated (positionally
preserved in any written manifest) and never mark the run as changed: a
manifest with no temurin entry yields a successful no-write run. -/
theorem run_nontemurin_untouched (fetch : String → HttpResponse) (data : JdksYaml) :
    (∀ m, run fetch (.ok data) = { failed := none, written := some m } →
      ∀ i (hi : i < data.jdks.length) (hi' : i < m.jdks.length),
        ¬ (data.jdks.get ⟨i, hi⟩).vendor = "temurin" →
        m.jdks.get ⟨i, hi'⟩ = data.jdks.get ⟨i, hi⟩) ∧
    ((∀ j ∈ data.jdks, ¬ j.vendor = "temurin") →
      run fetch (.ok data) = { failed := none, written := none }) := by
  constructor
  · intro m hrun i hi hi' hv
    obtain ⟨l', hp, hm⟩ := run_ok_inv fetch data m hrun
    subst hm
    obtain ⟨-, hget, -⟩ := processJdks_ok fetch data.jdks l' true hp
    obtain ⟨c, hc⟩ := hget i hi hi'
    rw [updateJdk_not_temurin fetch (data.jdks.get ⟨i, hi⟩) hv] at hc
    simp only [Except.ok.injEq, Prod.mk.injEq] at hc
    exact hc.1.symm
  · intro hall
    have hp : processJdks fetch data.jdks = .ok (data.jdks, false) :=
      processJdks_id fetch data.jdks
        (fun j hj => updateJdk_not_temurin fetch j (hall j hj))
    simp [run, hp]

/-- Witness for C3: a manifest holding only a non-temurin entry runs
successfully without writing. -/
theorem run_nontemurin_untouched_witness :
    run okFetch (.ok dataOther) = { failed := none, written := none } :=
  (run_nontemurin_untouched okFetch dataOther).2 (by decide)

/-- Claim C4: if every temurin entry's resolved version equals its current
version string, `run()` performs no write, so the file content afterwards
is byte-identical to before, for any serializer. -/
theorem run_no_change_no_write (fetch : String → HttpResponse) (data : JdksYaml)
    (h : ∀ j ∈ data.jdks, j.vendor = "temurin" →
      ∀ v s, getLatestTemurinVersion fetch j = .ok (v, s) → v = j.version) :
    (run fetch (.ok data)).written = none ∧
    ∀ (dump : JdksYaml → String) (before : String),
      fileAfter dump before (run fetch (.ok data)) = before := by
  have hw : (run fetch (.ok data)).written = none := by
    unfold run
    dsimp only
    cases hp : processJdks fetch data.jdks with
    | error e => rfl
    | ok nb =>
      obtain ⟨l', b⟩ := nb
      cases hb : b with
      | false => rfl
      | true =>
        exfalso
        obtain ⟨-, -, hch⟩ := processJdks_ok fetch data.jdks l' b hp
        obtain ⟨j, hj, j2, hj2⟩ := hch hb
        rcases updateJdk_ok_cases fetch j j2 true hj2 with ⟨-, hc⟩ | ⟨hv, v, s, hvs, hne, -, -⟩
        · cases hc
        · exact hne (h j hj hv v s hvs)
  exact ⟨hw, fun dump before => by unfold fileAfter; rw [hw]⟩

/-- Witness for C4: a world answering the pinned release name (with a
drifted checksum) produces no write. -/
theorem run_no_change_no_write_witness :
    (run sameVersionFetch (.ok dataLinux)).written = none :=
  (run_no_change_no_write sameVersionFetch dataLinux (by
    intro j hj hv v s hvs
    have hj' : j = jdkLinux := by simpa [dataLinux] using hj
    subst hj'
    have hres : getLatestTemurinVersion sameVersionFetch jdkLinux =
        .ok ("jdk-21.0.3+9", "driftsha") := by decide
    rw [hres] at hvs
    simp only [Except.ok.injEq, Prod.mk.injEq] at hvs
    exact hvs.1.symm)).1

/-- Claim C2: in any written manifest, a temurin entry is either byte-for-
byte the original or has `version` and `sha256` replaced together by the
pair the resolver returned — never one field without the other. -/
theorem run_version_sha_together (fetch : String → HttpResponse)
    (data m : JdksYaml)
    (hrun : run fetch (.ok data) = { failed := none, written := some m })
    (i : Nat) (hi : i < data.jdks.length) (hi' : i < m.jdks.length)
    (hv : (data.jdks.get ⟨i, hi⟩).vendor = "temurin") :
    m.jdks.get ⟨i, hi'⟩ = data.jdks.get ⟨i, hi⟩ ∨
      ∃ v s, getLatestTemurinVersion fetch (data.jdks.get ⟨i, hi⟩) = .ok (v, s) ∧
        m.jdks.get ⟨i, hi'⟩ =
          { data.jdks.get ⟨i, hi⟩ with version := v, sha256 := s } := by
  obtain ⟨l', hp, hm⟩ := run_ok_inv fetch data m hrun
  subst hm
  obtain ⟨-, hget, -⟩ := processJdks_ok fetch data.jdks l' true hp
  obtain ⟨c, hc⟩ := hget i hi hi'
  rcases updateJdk_ok_cases fetch _ _ _ hc with ⟨heq, -⟩ | ⟨-, v, s, hvs, -, heq, -⟩
  · exact Or.inl heq
  · exact Or.inr ⟨v, s, hvs, heq⟩

/-- Witness for C2 on a one-entry manifest actually rewritten by `okFetch`. -/
theorem run_version_sha_together_witness :
    dataLinuxUpdated.jdks.get ⟨0, by decide⟩ = dataLinux.jdks.get ⟨0, by decide⟩ ∨
      ∃ v s, getLatestTemurinVersion okFetch (dataLinux.jdks.get ⟨0, by decide⟩) =
          .ok (v, s) ∧
        dataLinuxUpdated.jdks.get ⟨0, by decide⟩ =
          { dataLinux.jdks.get ⟨0, by decide⟩ with version := v, sha256 := s } :=
  run_version_sha_together okFetch dataLinux dataLinuxUpdated (by decide) 0
    (by decide) (by decide) (by decide)

/-- Claim C9: whenever `run()` rewrites the manifest, the written value
keeps the unknown top-level keys, the entry count and order (entry `i` of
the output is the processed entry `i` of the input), and every field of
every unchanged entry. -/
theorem run_write_preserves (fetch : String → HttpResponse) (data m : JdksYaml)
    (hrun : run fetch (.ok data) = { failed := none, written := some m }) :
    m.extra = data.extra ∧
    m.jdks.length = data.jdks.length ∧
    ∀ i (hi : i < data.jdks.length) (hi' : i < m.jdks.length),
      (∃ c, updateJdk fetch (data.jdks.get ⟨i, hi⟩) = .ok (m.jdks.get ⟨i, hi'⟩, c)) ∧
      (updateJdk fetch (data.jdks.get ⟨i, hi⟩) = .ok (data.jdks.get ⟨i, hi⟩, false) →
        m.jdks.get ⟨i, hi'⟩ = data.jdks.get ⟨i, hi⟩) := by
  obtain ⟨l', hp, hm⟩ := run_ok_inv fetch data m hrun
  subst hm
  obtain ⟨hlen, hget, -⟩ := processJdks_ok fetch data.jdks l' true hp
  refine ⟨rfl, hlen, ?_⟩
  intro i hi hi'
  obtain ⟨c, hc⟩ := hget i hi hi'
  refine ⟨⟨c, hc⟩, ?_⟩
  intro hun
  rw [hun] at hc
  simp only [Except.ok.injEq, Prod.mk.injEq] at hc
  exact hc.1.symm

/-- Witness for C9 on a two-entry manifest where only the first entry
changes: unknown keys and the untouched second entry survive. -/
theorem run_write_preserves_witness :
    dataTwoUpdated.extra = dataTwo.extra ∧
    dataTwoUpdated.jdks.get ⟨1, by decide⟩ = dataTwo.jdks.get ⟨1, by decide⟩ :=
  ⟨(run_write_preserves okFetch dataTwo dataTwoUpdated (by decide)).1,
    ((run_write_preserves okFetch dataTwo dataTwoUpdated (by decide)).2.2 1
      (by decide) (by decide)).2 (by decide)⟩

/-- Claim C6: on a successful response the resolver takes exactly the first
element of the parsed array (no re-sorting; the tail is irrelevant) and
returns its `release_name` as the version and its `binary.package.checksum`
as the sha256; an empty array, or a first element lacking (or carrying a
falsy) release name or nested checksum, fails with a
`MalformedResponseError` that includes the raw payload. -/
theorem getLatestTemurinVersion_first_asset (fetch : String → HttpResponse)
    (jdk : Jdk) (mv : Nat) (tAr tOs : String)
    (h1 : extractMajorVersion jdk.version = .ok mv)
    (h2 : getOrError ARCH_MAPPING jdk.arch = .ok tAr)
    (h3 : getOrError OS_MAPPING jdk.os = .ok tOs)
    (h4 : (fetch (apiUrl mv tOs tAr)).ok = true) :
    ((fetch (apiUrl mv tOs tAr)).json = [] →
      getLatestTemurinVersion fetch jdk = .error (.malformedResponse mv [])) ∧
    (∀ a rest, (fetch (apiUrl mv tOs tAr)).json = a :: rest →
      (∀ rn cs, a.release_name = some rn → ¬ rn = "" →
        assetChecksum a = some cs → ¬ cs = "" →
        getLatestTemurinVersion fetch jdk = .ok (rn, cs)) ∧
      ((a.release_name = none ∨ a.release_name = some "" ∨
          assetChecksum a = none ∨ assetChecksum a = some "") →
        getLatestTemurinVersion fetch jdk =
          .error (.malformedResponse mv (a :: rest)))) := by
  unfold getLatestTemurinVersion
  rw [h1]; dsimp only
  rw [h2]; dsimp only
  rw [h3]; dsimp only
  rw [if_neg (by simp [h4])]
  constructor
  · intro hjson
    rw [hjson]
    rfl
  · intro a rest hjson
    rw [hjson]
    dsimp only [List.head?]
    constructor
    · intro rn cs hrn hrn0 hcs hcs0
      rw [hrn, hcs]
      dsimp only
      rw [if_neg (not_or.mpr ⟨hrn0, hcs0⟩)]
    · intro hbad
      rcases hbad with hrn | hrn | hcs | hcs
      · rw [hrn]
      · rw [hrn]
        cases hc : assetChecksum a with
        | none => rfl
        | some c =>
          dsimp only
          rw [if_pos (Or.inl rfl)]
      · rw [hcs]
        cases hr : a.release_name with
        | none => rfl
        | some r => rfl
      · rw [hcs]
        cases hr : a.release_name with
        | none => rfl
        | some r =>
          dsimp only
          rw [if_pos (Or.inr rfl)]

/-- Witness for C6: the fixture world returns one well-formed descriptor
and the resolver surfaces its fields. -/
theorem getLatestTemurinVersion_first_asset_witness :
    getLatestTemurinVersion okFetch jdkLinux = .ok ("jdk-22.0.1+8", "newsha256") :=
  ((getLatestTemurinVersion_first_asset okFetch jdkLinux 21 "x64" "linux"
      (by decide) (by decide) (by decide) (by decide)).2 okAsset [] (by decide)).1
    "jdk-22.0.1+8" "newsha256" (by decide) (by decide) (by decide) (by decide)

/-- Claim C7: a non-success HTTP status makes the resolver fail with a
`FetchError` carrying the status text and response body, and a run hitting
that entry reports the failure without touching the manifest. -/
theorem getLatestTemurinVersion_fetch_error (fetch : String → HttpResponse)
    (jdk : Jdk) (mv : Nat) (tAr tOs : String)
    (h1 : extractMajorVersion jdk.version = .ok mv)
    (h2 : getOrError ARCH_MAPPING jdk.arch = .ok tAr)
    (h3 : getOrError OS_MAPPING jdk.os = .ok tOs)
    (h4 : (fetch (apiUrl mv tOs tAr)).ok = false)
    (hv : jdk.vendor = "temurin") :
    getLatestTemurinVersion fetch jdk =
      .error (.fetchError mv (fetch (apiUrl mv tOs tAr)).statusText
        (fetch (apiUrl mv tOs tAr)).text) ∧
    (∀ (l1 l2 : List Jdk) (extra : List (String × String)),
      (∀ x ∈ l1, ∃ r, updateJdk fetch x = .ok r) →
      run fetch (.ok { jdks := l1 ++ jdk :: l2, extra := extra }) =
        { failed := some (.fetchError mv (fetch (apiUrl mv tOs tAr)).statusText
            (fetch (apiUrl mv tOs tAr)).text)
          written := none }) := by
  have hres : getLatestTemurinVersion fetch jdk =
      .error (.fetchError mv (fetch (apiUrl mv tOs tAr)).statusText
        (fetch (apiUrl mv tOs tAr)).text) := by
    unfold getLatestTemurinVersion
    rw [h1]; dsimp only
    rw [h2]; dsimp only
    rw [h3]; dsimp only
    rw [if_pos h4]
  refine ⟨hres, ?_⟩
  intro l1 l2 extra hok
  have hup : updateJdk fetch jdk =
      .error (.fetchError mv (fetch (apiUrl mv tOs tAr)).statusText
        (fetch (apiUrl mv tOs tAr)).text) := by
    unfold updateJdk
    rw [if_pos hv, hres]
  have hp := processJdks_first_error fetch l1 jdk l2 _ hok hup
  simp [run, hp]

/-- Witness for C7: the non-success world makes the whole run fail with the
fetch error and no write. -/
theorem getLatestTemurinVersion_fetch_error_witness :
    run badStatusFetch (.ok dataLinux) =
      { failed := some (.fetchError 21 "Not Found" "no such release")
        written := none } :=
  (getLatestTemurinVersion_fetch_error badStatusFetch jdkLinux 21 "x64" "linux"
      (by decide) (by decide) (by decide) (by decide) (by decide)).2
    [] [] [("schemaVersion", "1")] (by simp)

/-- Claim C10: when the resolver returns the entry's current version with a
checksum different from the pinned `sha256`, the entry is left completely
unchanged and does not mark the run as changed — the change test compares
only the version string, so a checksum drifting alone is never refreshed. -/
theorem updateJdk_checksum_drift (fetch : String → HttpResponse) (jdk : Jdk)
    (s : String)
    (hv : jdk.vendor = "temurin")
    (hr : getLatestTemurinVersion fetch jdk = .ok (jdk.version, s))
    (hs : ¬ s = jdk.sha256) :
    updateJdk fetch jdk = .ok (jdk, false) ∧
    ∀ (extra : List (String × String)),
      run fetch (.ok { jdks := [jdk], extra := extra }) =
        { failed := none, written := none } := by
  have hup : updateJdk fetch jdk = .ok (jdk, false) := by
    unfold updateJdk
    rw [if_pos hv, hr]
    dsimp only
    rw [if_neg (by simp)]
  refine ⟨hup, ?_⟩
  intro extra
  have hp : processJdks fetch [jdk] = .ok ([jdk], false) :=
    processJdks_id fetch [jdk] (by
      intro x hx
      simp at hx
      subst hx
      exact hup)
  simp [run, hp]

/-- Witness for C10: the drifted-checksum world leaves `jdkLinux` untouched
and unflagged. -/
theorem updateJdk_checksum_drift_witness :
    updateJdk sameVersionFetch jdkLinux = .ok (jdkLinux, false) :=
  (updateJdk_checksum_drift sameVersionFetch jdkLinux "driftsha" (by decide)
    (by decide) (by decide)).1

end UpdateJdksAction
